import Mathlib

/-!
Shallow embedding of the lily chain indexer pieces that the claims concern:
message extraction (lens/util/repo.go), the multisig-approvals task
(tasks/msapprovals), and the storage layer behaviours pinned by the
storage tests (sql_test.go).  CIDs and addresses are modelled as naturals;
fallible operations return Except String; external collaborators
(chain store, node API, CBOR codecs) are records of functions.
-/

namespace Lily

abbrev CID := Nat
abbrev Address := Nat

/-- cid.Undef, the zero value of a CID. -/
def cidUndef : CID := 0

/-- The init actor address (f01). -/
def builtininitAddress : Address := 1

structure Actor where
  Code : CID
  Head : CID
  Nonce : Nat
  Balance : Int
deriving Repr, DecidableEq

structure Message where
  From : Address
  To : Address
  Value : Int
  Method : Nat
  Params : List Nat
  GasLimit : Int
  GasFeeCap : Int
  GasPremium : Int
  Nonce : Nat
deriving Repr, DecidableEq

/-- A chain message (types.ChainMsg): a VM message together with the CID of
its chain representation (for Secp messages the signed-message CID differs
from the unsigned message CID). -/
structure ChainMsg where
  VMMessage : Message
  Cid : CID
deriving Repr, DecidableEq

structure MessageReceipt where
  ExitCode : Int
  Return : List Nat
  GasUsed : Int
deriving Repr, DecidableEq

structure BlockHeader where
  Messages : CID
  ParentMessageReceipts : CID
  ParentBaseFee : Int
deriving Repr, DecidableEq

structure TipSet where
  Cids : List CID
  Blocks : List BlockHeader
  Height : Nat
  Parents : List CID
  ParentState : CID
deriving Repr, DecidableEq

/-- ts.Key(): the tipset key is its list of block CIDs. -/
def TipSet.Key (ts : TipSet) : List CID := ts.Cids

structure GasOutputs where
  BaseFeeBurn : Int
  OverEstimationBurn : Int
  MinerPenalty : Int
  MinerTip : Int
  Refund : Int
  GasRefund : Int
  GasBurned : Int
deriving Repr, DecidableEq

/-- store.BlockMessages: the messages of one block of a tipset, split into
BLS and Secp parts. -/
structure BlockMsgs where
  BlsMessages : List ChainMsg
  SecpkMessages : List ChainMsg
deriving Repr, DecidableEq

/-- lens.BlockMessages: all messages of one (child) block. -/
structure BlockMessages where
  Block : BlockHeader
  BlsMessages : List Message
  SecpMessages : List Message
deriving Repr, DecidableEq

/-- lens.ExecutedMessage before the receipt-filling second pass of
GetExecutedAndBlockMessagesForTipset (the Go code mutates one struct; the
observable intermediate state has no receipt yet). -/
structure ExecutedMessagePre where
  Cid : CID
  Height : Nat
  Message : Message
  BlockHeader : BlockHeader
  Blocks : List CID
  Index : Nat
  FromActorCode : CID
  ToActorCode : CID
deriving Repr, DecidableEq

/-- lens.ExecutedMessage as returned: every message carries its receipt and
gas outputs. -/
structure ExecutedMessage where
  Cid : CID
  Height : Nat
  Message : Message
  BlockHeader : BlockHeader
  Blocks : List CID
  Index : Nat
  FromActorCode : CID
  ToActorCode : CID
  Receipt : MessageReceipt
  GasOutputs : GasOutputs
deriving Repr, DecidableEq

/-- A state tree: finite map from address to actor (state.StateTree with
GetActor = lookup, ForEach = iteration over the entries). -/
abbrev StateTree := List (Address × Actor)

/-- The init actor state exposes address resolution; Go returns
(resolved, found, err) and the caller treats err and not-found alike, so
both collapse to none. -/
structure InitActorState where
  ResolveAddress : Address → Option Address

structure TipSetMessages where
  Executed : List ExecutedMessage
  Block : List BlockMessages

/-- The chain store / node facilities consumed by
GetExecutedAndBlockMessagesForTipset.  Each field models one external call
site of repo.go; ComputeGasOutputs is the pure lotus vm function, kept
abstract. -/
structure ChainStore where
  ReadMsgMetaCids : CID → Except String (List CID × List CID)
  BlockMsgsForTipset : TipSet → Except String (List BlockMsgs)
  LoadReceipts : CID → Except String (List (Option MessageReceipt))
  LoadStateTree : CID → Except String StateTree
  LoadInitActorState : Actor → Except String InitActorState
  NewVM : CID → Nat → Except String Unit
  ShouldBurn : StateTree → Message → Int → Except String Bool
  ComputeGasOutputs : Int → Int → Int → Int → Int → Bool → GasOutputs
  MessagesForBlock : BlockHeader → Except String (List Message × List Message)

/-- types.CidArrsEqual: equal length and elementwise equal. -/
def CidArrsEqual (a b : List CID) : Bool := a == b

/-- MakeGetActorCodeFunc (repo.go): loads the child state tree
(next.ParentState), builds the actor-code map, loads the init actor state,
and returns a resolver.  The resolver checks the child map, then resolves
through the init actor state and rechecks the child map, and only when
resolution succeeded but the resolved address is absent falls back to
looking the original address up in the parent state tree
(current.ParentState).  When resolution itself fails the resolver returns
not-found without consulting the parent tree. -/
def MakeGetActorCodeFunc (store : ChainStore) (next current : TipSet) :
    Except String (Address → CID × Bool) :=
  match store.LoadStateTree next.ParentState with
  | .error e => .error ("load state tree: " ++ e)
  | .ok nextStateTree =>
    let actorCodes : Address → Option CID := fun a => (nextStateTree.lookup a).map Actor.Code
    match nextStateTree.lookup builtininitAddress with
    | none => .error "getting init actor"
    | some nextInitActor =>
      match store.LoadInitActorState nextInitActor with
      | .error e => .error ("loading init actor state: " ++ e)
      | .ok nextInitActorState =>
        .ok (fun a =>
          match actorCodes a with
          | some c => (c, true)
          | none =>
            match nextInitActorState.ResolveAddress a with
            | none => (cidUndef, false)
            | some ra =>
              match actorCodes ra with
              | some c => (c, true)
              | none =>
                match store.LoadStateTree current.ParentState with
                | .error _ => (cidUndef, false)
                | .ok currentStateTree =>
                  match currentStateTree.lookup a with
                  | some act => (act.Code, true)
                  | none => (cidUndef, false))

/-- Extend the message-to-blocks map: each key in keys gets the block CID v
appended to its entry. -/
def appendBlockCid (m : CID → List CID) (keys : List CID) (v : CID) : CID → List CID :=
  keys.foldl (fun m k => fun c => if c = k then m c ++ [v] else m c) m

/-- The messageBlocks loop of GetExecutedAndBlockMessagesForTipset: for each
block of the parent tipset, read its BLS and Secp message CIDs and record
that the block carries each of them. -/
def buildMessageBlocksGo (cs : ChainStore) :
    List (BlockHeader × CID) → (CID → List CID) → Except String (CID → List CID)
  | [], acc => .ok acc
  | (bh, bcid) :: rest, acc =>
    match cs.ReadMsgMetaCids bh.Messages with
    | .error e => .error ("read messages for block: " ++ e)
    | .ok (blscids, secpkcids) =>
      buildMessageBlocksGo cs rest (appendBlockCid acc (blscids ++ secpkcids) bcid)

def buildMessageBlocks (cs : ChainStore) (current : TipSet) :
    Except String (CID → List CID) :=
  buildMessageBlocksGo cs (current.Blocks.zip current.Cids) (fun _ => [])

/-- One step of the executed-message building loop: resolve to-code (failure
is only a warning) and from-code (failure aborts with an error) and build
the entry at the given running index. -/
def processChainMsg (getActorCode : Address → CID × Bool)
    (messageBlocks : CID → List CID) (height : Nat) (bh : BlockHeader)
    (index : Nat) (cm : ChainMsg) : Except String ExecutedMessagePre :=
  let msg := cm.VMMessage
  let toCode := (getActorCode msg.To).1
  match getActorCode msg.From with
  | (_, false) => .error "failed to find from actor"
  | (fromCode, true) =>
    .ok { Cid := cm.Cid, Height := height, Message := msg, BlockHeader := bh,
          Blocks := messageBlocks cm.Cid, Index := index,
          FromActorCode := fromCode, ToActorCode := toCode }

/-- Process a run of chain messages of one block, threading the running
index. -/
def processChainMsgs (gac : Address → CID × Bool) (mb : CID → List CID)
    (height : Nat) (bh : BlockHeader) :
    Nat → List ChainMsg → Except String (List ExecutedMessagePre × Nat)
  | index, [] => .ok ([], index)
  | index, cm :: rest =>
    match processChainMsg gac mb height bh index cm with
    | .error e => .error e
    | .ok em =>
      match processChainMsgs gac mb height bh (index + 1) rest with
      | .error e => .error e
      | .ok (ems, idx) => .ok (em :: ems, idx)

/-- The main executed-message loop: per block (in block order), BLS messages
first, then Secp messages, with one running index across all of them. -/
def buildExecutedMessages (gac : Address → CID × Bool) (mb : CID → List CID)
    (height : Nat) :
    Nat → List (BlockMsgs × BlockHeader) → Except String (List ExecutedMessagePre × Nat)
  | index, [] => .ok ([], index)
  | index, (bm, bh) :: rest =>
    match processChainMsgs gac mb height bh index bm.BlsMessages with
    | .error e => .error e
    | .ok (l1, i1) =>
      match processChainMsgs gac mb height bh i1 bm.SecpkMessages with
      | .error e => .error e
      | .ok (l2, i2) =>
        match buildExecutedMessages gac mb height i2 rest with
        | .error e => .error e
        | .ok (l3, i3) => .ok (l1 ++ l2 ++ l3, i3)

/-- The second pass: fetch each message receipt at em.Index from the
receipts array (the AMT may be sparse, hence Option entries), decide
ShouldBurn and compute the gas outputs. -/
def fillReceipts (cs : ChainStore) (pst : StateTree)
    (rs : List (Option MessageReceipt)) :
    List ExecutedMessagePre → Except String (List ExecutedMessage)
  | [] => .ok []
  | em :: rest =>
    match rs.get? em.Index with
    | none => .error "failed to find receipt"
    | some none => .error "failed to find receipt"
    | some (some r) =>
      match cs.ShouldBurn pst em.Message r.ExitCode with
      | .error e => .error ("deciding whether should burn failed: " ++ e)
      | .ok burn =>
        match fillReceipts cs pst rs rest with
        | .error e => .error e
        | .ok rest2 =>
          .ok ({ Cid := em.Cid, Height := em.Height, Message := em.Message,
                 BlockHeader := em.BlockHeader, Blocks := em.Blocks,
                 Index := em.Index, FromActorCode := em.FromActorCode,
                 ToActorCode := em.ToActorCode, Receipt := r,
                 GasOutputs := cs.ComputeGasOutputs r.GasUsed
                   em.Message.GasLimit em.BlockHeader.ParentBaseFee
                   em.Message.GasFeeCap em.Message.GasPremium burn } :: rest2)

/-- Collect the child blocks with their messages (the final loop). -/
def buildBlockMessages (cs : ChainStore) :
    List BlockHeader → Except String (List BlockMessages)
  | [] => .ok []
  | blk :: rest =>
    match cs.MessagesForBlock blk with
    | .error e => .error e
    | .ok (msgs, smsgs) =>
      match buildBlockMessages cs rest with
      | .error e => .error e
      | .ok others =>
        .ok ({ Block := blk, BlsMessages := msgs, SecpMessages := smsgs } :: others)

/-- GetExecutedAndBlockMessagesForTipset (repo.go): join the parent tipset
messages (next = child, current = parent) with the child receipts.  The Go
code indexes next.Blocks()[0] unconditionally; an empty child tipset
(excluded by the tipset invariant) panics there, modelled as an error. -/
def GetExecutedAndBlockMessagesForTipset (cs : ChainStore)
    (next current : TipSet) : Except String TipSetMessages :=
  if !(CidArrsEqual next.Parents current.Cids) then
    .error "child tipset is not on the same chain as parent"
  else
  match MakeGetActorCodeFunc cs next current with
  | .error e => .error e
  | .ok getActorCode =>
  match buildMessageBlocks cs current with
  | .error e => .error e
  | .ok messageBlocks =>
  match cs.BlockMsgsForTipset current with
  | .error e => .error ("block messages for tipset: " ++ e)
  | .ok bmsgs =>
  if bmsgs.length ≠ current.Blocks.length then
    .error "mismatching number of blocks returned from block messages"
  else
  match buildExecutedMessages getActorCode messageBlocks current.Height 0
      (bmsgs.zip current.Blocks) with
  | .error e => .error e
  | .ok (emsgs, _) =>
  match next.Blocks with
  | [] => .error "no blocks in child tipset"
  | blk0 :: _ =>
  match cs.LoadReceipts blk0.ParentMessageReceipts with
  | .error e => .error ("amt load: " ++ e)
  | .ok rs =>
  if rs.length ≠ emsgs.length then
    .error "mismatching number of receipts"
  else
  match cs.NewVM current.ParentState current.Height with
  | .error e => .error ("creating temporary vm: " ++ e)
  | .ok _ =>
  match cs.LoadStateTree current.ParentState with
  | .error e => .error ("load state tree: " ++ e)
  | .ok parentStateTree =>
  match fillReceipts cs parentStateTree rs emsgs with
  | .error e => .error e
  | .ok executed =>
  match buildBlockMessages cs next.Blocks with
  | .error e => .error e
  | .ok blkMsgs => .ok { Executed := executed, Block := blkMsgs }

/-! ## The multisig-approvals task (tasks/msapprovals) -/

def ProposeMethodNum : Nat := 2
def ApproveMethodNum : Nat := 3

/-- The four built-in multisig actor code CIDs (v0, v2, v3, v4), modelled as
distinct nonzero constants. -/
def sa0MultisigCodeID : CID := 1000
def sa2MultisigCodeID : CID := 1002
def sa3MultisigCodeID : CID := 1003
def sa4MultisigCodeID : CID := 1004

def isMultisigActor (code : CID) : Bool :=
  code == sa0MultisigCodeID || code == sa2MultisigCodeID ||
  code == sa3MultisigCodeID || code == sa4MultisigCodeID

/-- exitcode.IsSuccess: the exit code is zero. -/
def exitCodeIsSuccess (e : Int) : Bool := e == 0

/-- multisig.ProposeReturn. -/
structure ProposeReturn where
  TxnID : Int
  Applied : Bool
  Code : Int
  Ret : List Nat
deriving Repr, DecidableEq

/-- multisig3.ApproveReturn. -/
structure ApproveReturn where
  Applied : Bool
  Code : Int
  Ret : List Nat
deriving Repr, DecidableEq

/-- multisig3.ProposeParams. -/
structure ProposeParams where
  To : Address
  Value : Int
  Method : Nat
  Params : List Nat
deriving Repr, DecidableEq

/-- multisig3.TxnIDParams. -/
structure TxnIDParams where
  ID : Int
  ProposalHash : List Nat
deriving Repr, DecidableEq

/-- multisig.Transaction (a pending transaction of a multisig actor). -/
structure MsigTransaction where
  To : Address
  Value : Int
  Method : Nat
  Params : List Nat
  Approved : List Address
deriving Repr, DecidableEq

/-- The CBOR decoders the task uses (UnmarshalCBOR of the four types),
kept abstract: decoding raw bytes either fails or yields the struct. -/
structure Codec where
  decodeProposeReturn : List Nat → Except String ProposeReturn
  decodeApproveReturn : List Nat → Except String ApproveReturn
  decodeProposeParams : List Nat → Except String ProposeParams
  decodeTxnIDParams : List Nat → Except String TxnIDParams

/-- The version-agnostic multisig state accessors the task consults; each
read can fail.  PendingTxns models ForEachPendingTxn as the finite list of
(id, transaction) pairs it visits (or a wholesale iteration error). -/
structure MultisigState where
  InitialBalance : Except String Int
  Threshold : Except String Nat
  Signers : Except String (List Address)
  PendingTxns : Except String (List (Int × MsigTransaction))

/-- The node API surface of the task: StateGetActor at a tipset key, and
loading a multisig actor state from an actor. -/
structure NodeAPI where
  StateGetActor : Address → List CID → Except String Actor
  LoadMultisig : Actor → Except String MultisigState

/-- The internal transaction record of the task. -/
structure MsTransaction where
  id : Int
  toAddr : Address
  value : Int
deriving Repr, DecidableEq

structure MultisigError where
  Addr : Address
  Error : String
deriving Repr, DecidableEq

structure MultisigApproval where
  Height : Nat
  StateRoot : CID
  MultisigID : Address
  Message : CID
  Method : Nat
  Approver : Address
  GasUsed : Int
  TransactionID : Int
  To : Address
  Value : Int
  InitialBalance : Int
  Threshold : Nat
  Signers : List Address
deriving Repr, DecidableEq

/-- getTransactionIfApplied: Go returns (applied, tx, err) with tx non-nil
exactly when applied is true, modelled as Except String (Option
MsTransaction) with some tx meaning applied.  For Propose the details come
from the return value and params; for Approve the multisig state is loaded
at pts.Parents (the pre-message snapshot) and its pending-transaction map
scanned for the id in the params (last match wins, as the Go range does);
a missing pending transaction is an error. -/
def getTransactionIfApplied (node : NodeAPI) (codec : Codec) (msg : Message)
    (rcpt : MessageReceipt) (pts : TipSet) :
    Except String (Option MsTransaction) :=
  if msg.Method = ProposeMethodNum then
    match codec.decodeProposeReturn rcpt.Return with
    | .error e => .error ("failed to decode return value: " ++ e)
    | .ok ret =>
      if !ret.Applied then .ok none
      else
        match codec.decodeProposeParams msg.Params with
        | .error e => .error ("failed to decode message params: " ++ e)
        | .ok params =>
          .ok (some { id := ret.TxnID, toAddr := params.To, value := params.Value })
  else if msg.Method = ApproveMethodNum then
    match codec.decodeApproveReturn rcpt.Return with
    | .error e => .error ("failed to decode return value: " ++ e)
    | .ok ret =>
      if !ret.Applied then .ok none
      else
        match codec.decodeTxnIDParams msg.Params with
        | .error e => .error ("failed to decode message params: " ++ e)
        | .ok params =>
          match node.StateGetActor msg.To pts.Parents with
          | .error e => .error ("failed to load previous actor: " ++ e)
          | .ok act =>
            match node.LoadMultisig act with
            | .error e => .error ("failed to load previous actor state: " ++ e)
            | .ok prevActorState =>
              match prevActorState.PendingTxns with
              | .error e => .error ("failed to read transaction details: " ++ e)
              | .ok pending =>
                match pending.foldl
                    (fun acc p =>
                      if p.1 = params.ID then
                        some { id := params.ID, toAddr := p.2.To, value := p.2.Value }
                      else acc) (none : Option MsTransaction) with
                | none => .error "pending transaction not found"
                | some tx => .ok (some tx)
  else
    .ok none

/-- The outcome of ProcessMessages for a single executed message: a result
row, a per-message error entry, or a silent skip. -/
inductive MsgOutcome where
  | row (a : MultisigApproval)
  | failed (e : MultisigError)
  | skipped
deriving Repr, DecidableEq

/-- The body of the ProcessMessages loop for one executed message: the
multisig-code / success / method filters skip silently; a failing
getTransactionIfApplied or post-state read records a per-message error; a
not-applied transaction skips; otherwise a row is built from the message,
the transaction and the post-message actor state (loaded at ts.Key). -/
def processMessage (node : NodeAPI) (codec : Codec) (ts pts : TipSet)
    (m : ExecutedMessage) : MsgOutcome :=
  if !isMultisigActor m.ToActorCode then .skipped
  else if !exitCodeIsSuccess m.Receipt.ExitCode then .skipped
  else if m.Message.Method ≠ ProposeMethodNum ∧ m.Message.Method ≠ ApproveMethodNum then .skipped
  else
    match getTransactionIfApplied node codec m.Message m.Receipt pts with
    | .error e => .failed { Addr := m.Message.To, Error := "failed to find transaction: " ++ e }
    | .ok none => .skipped
    | .ok (some tx) =>
      match node.StateGetActor m.Message.To ts.Key with
      | .error e => .failed { Addr := m.Message.To, Error := "failed to load actor: " ++ e }
      | .ok act =>
        match node.LoadMultisig act with
        | .error e => .failed { Addr := m.Message.To, Error := "failed to load actor state: " ++ e }
        | .ok actorState =>
          match actorState.InitialBalance with
          | .error e => .failed { Addr := m.Message.To, Error := "failed to read initial balance: " ++ e }
          | .ok ib =>
            match actorState.Threshold with
            | .error e => .failed { Addr := m.Message.To, Error := "failed to read initial balance: " ++ e }
            | .ok threshold =>
              match actorState.Signers with
              | .error e => .failed { Addr := m.Message.To, Error := "failed to read signers: " ++ e }
              | .ok signers =>
                .row { Height := pts.Height, StateRoot := pts.ParentState,
                       MultisigID := m.Message.To, Message := m.Cid,
                       Method := m.Message.Method, Approver := m.Message.From,
                       GasUsed := m.Receipt.GasUsed, TransactionID := tx.id,
                       To := tx.toAddr, Value := tx.value, InitialBalance := ib,
                       Threshold := threshold, Signers := signers }

/-- ProcessMessages (msapprovals task): fold the per-message outcomes in
order into the approval rows and the report's errors-detected list.  (The
Go function returns the rows as the persistable and the errors in the
processing report; the context-cancellation check is a concurrency facility
outside this embedding.) -/
def ProcessMessages (node : NodeAPI) (codec : Codec) (ts pts : TipSet) :
    List ExecutedMessage → List MultisigApproval × List MultisigError
  | [] => ([], [])
  | m :: rest =>
    let acc := ProcessMessages node codec ts pts rest
    match processMessage node codec ts pts m with
    | .row a => (a :: acc.1, acc.2)
    | .failed e => (acc.1, e :: acc.2)
    | .skipped => acc

/-! ## Storage layer

The storage package implementation is not part of the repository files
available here; only its tests are (sql_test.go).  The definitions below
are modelled from the spec, with output formats fixed by the in-src test
expectations. -/

/-- A column of a model as declared by its struct tags: its snake_case
name, whether it is a primary-key participant, and whether it is ignored
(pg dash tag or excluded at the active schema version). -/
structure ColumnSpec where
  name : String
  pk : Bool
  ignored : Bool
deriving Repr, DecidableEq

/-- Lexicographic byte order on character lists (sort.Strings order for
ASCII column names). -/
def charListLe : List Char → List Char → Bool
  | [], _ => true
  | _ :: _, [] => false
  | a :: as, b :: bs =>
    if a.toNat < b.toNat then true
    else if b.toNat < a.toNat then false
    else charListLe as bs

def strLe (a b : String) : Bool := charListLe a.data b.data

def insertSortedString (x : String) : List String → List String
  | [] => [x]
  | y :: ys => if strLe x y then x :: y :: ys else y :: insertSortedString x ys

/-- Insertion sort on strings, ascending. -/
def sortStrings : List String → List String
  | [] => []
  | x :: xs => insertSortedString x (sortStrings xs)

/-- Modelled from the spec: GenerateUpsertStrings of the storage package
(implementation absent from src; only TestingUpsertStruct and
TestUpsertSQLGeneration are present).  Per the spec, the conflict clause
lists the declared primary-key columns sorted, the update clause lists the
non-PK, non-ignored columns sorted; the exact textual shape is the one the
in-src test expects. -/
def GenerateUpsertStrings (cols : List ColumnSpec) : String × String :=
  let conflictCols := sortStrings ((cols.filter (fun c => c.pk)).map (fun c => c.name))
  let updateCols :=
    sortStrings ((cols.filter (fun c => !c.pk && !c.ignored)).map (fun c => c.name))
  ("(" ++ String.intercalate ", " conflictCols ++ ") DO UPDATE",
   String.intercalate ", "
     (updateCols.map (fun c => "\"" ++ c ++ "\" = EXCLUDED." ++ c)))

/-- The column declarations of TestingUpsertStruct (sql_test.go): tableName
is not a column; Ignored carries the pg dash tag; Height, Cid and StateRoot
are primary keys; the remaining five are plain columns. -/
def TestingUpsertStructCols : List ColumnSpec :=
  [ { name := "ignored", pk := false, ignored := true },
    { name := "height", pk := true, ignored := false },
    { name := "cid", pk := true, ignored := false },
    { name := "state_root", pk := true, ignored := false },
    { name := "heads", pk := false, ignored := false },
    { name := "shoulders", pk := false, ignored := false },
    { name := "knees", pk := false, ignored := false },
    { name := "toes", pk := false, ignored := false },
    { name := "camel_case", pk := false, ignored := false } ]

/-- A SQL-bound value of a model field. -/
inductive SQLValue where
  | int (i : Int)
  | str (s : String)
deriving Repr, DecidableEq

/-- A field of a versioned model: its column name and the schema major
version in which the field appeared. -/
structure VersionedFieldSpec where
  name : String
  introduced : Nat
deriving Repr, DecidableEq

/-- Modelled from the spec: the version-gated column list — when the active
schema is older than a field's introduction, that field is silently elided
from the INSERT/UPSERT column list. -/
def versionedColumns (fields : List (VersionedFieldSpec × SQLValue))
    (major : Nat) : List (String × SQLValue) :=
  (fields.filter (fun f => f.1.introduced ≤ major)).map (fun f => (f.1.name, f.2))

/-- Modelled from the spec: persisting a versioned model emits one row
holding exactly the version-gated columns; it succeeds when every emitted
column exists in the active schema (the DB rejects unknown columns). -/
def persistVersioned (schemaCols : List String)
    (fields : List (VersionedFieldSpec × SQLValue)) (major : Nat) :
    Except String (List (String × SQLValue)) :=
  let row := versionedColumns fields major
  if row.all (fun c => schemaCols.contains c.1) then .ok row
  else .error "column does not exist"

/-- The VersionedModelLatest instance of TestDatabasePersistWithVersion:
height and block appeared at schema major 2, message at major 3, holding
the test's values 42, blocka, msg1. -/
def VersionedModelLatestFields : List (VersionedFieldSpec × SQLValue) :=
  [ ({ name := "height", introduced := 2 }, .int 42),
    ({ name := "block", introduced := 2 }, .str "blocka"),
    ({ name := "message", introduced := 3 }, .str "msg1") ]

/-- A persisted row shaped like the MinerInfo rows of TestModelUpsert: its
primary key (collapsed to one value) and its non-key columns (collapsed to
the owner column). -/
structure MinerInfoRow where
  height : Int
  owner : String
deriving Repr, DecidableEq

/-- Modelled from the spec: PersistBatch of one model into a table.  With
upsert disabled the insert of an existing primary key is a no-op (the
second insert is ignored, per TestModelUpsert); with upsert enabled the
conflicting row's non-key columns take the new values. -/
def persistRow (upsert : Bool) (table : List MinerInfoRow)
    (r : MinerInfoRow) : List MinerInfoRow :=
  if table.any (fun q => q.height = r.height) then
    if upsert then
      table.map (fun q => if q.height = r.height then { q with owner := r.owner } else q)
    else table
  else table ++ [r]

/-- The PostgreSQL identifier length limit, in bytes. -/
def MaxPostgresNameLength : Nat := 63

structure Database where
  url : String
  poolSize : Nat
  name : String
  schemaName : String
  upsert : Bool
deriving Repr, DecidableEq

/-- Modelled from the spec: NewDatabase (storage package; implementation
absent from src, only TestLongNames is present) rejects at construction any
reporter/schema identifier longer than the database identifier limit of 63
bytes, and otherwise yields the handle. -/
def NewDatabase (url : String) (poolSize : Nat) (name schemaName : String)
    (upsert : Bool) : Except String Database :=
  if name.utf8ByteSize > MaxPostgresNameLength then
    .error "reporter name exceeds maximum postgres name length"
  else if schemaName.utf8ByteSize > MaxPostgresNameLength then
    .error "schema name exceeds maximum postgres name length"
  else .ok { url := url, poolSize := poolSize, name := name,
             schemaName := schemaName, upsert := upsert }

/-! ## A concrete chain scenario used by the witnesses

One parent block (CID 20) carrying one BLS message (CID 50, a multisig
Propose) and one Secp message (CID 51, sent to an actor that only exists in
the parent state tree), one child block (CID 30) holding the two
receipts. -/

def actInit : Actor := { Code := 500, Head := 0, Nonce := 0, Balance := 0 }
def actA : Actor := { Code := 100, Head := 0, Nonce := 0, Balance := 0 }
def actB : Actor := { Code := 101, Head := 0, Nonce := 0, Balance := 0 }
def actM : Actor := { Code := sa0MultisigCodeID, Head := 0, Nonce := 0, Balance := 0 }
def actDeleted : Actor := { Code := 103, Head := 0, Nonce := 0, Balance := 0 }
def actUnresolved : Actor := { Code := 104, Head := 0, Nonce := 0, Balance := 0 }

/-- Child (post-message) state tree: the deleted actor 13 and the
unresolvable actor 14 are absent. -/
def stChild : StateTree := [(1, actInit), (10, actA), (11, actB), (12, actM)]

/-- Parent (pre-message) state tree: actors 13 and 14 still exist. -/
def stParent : StateTree :=
  [(1, actInit), (10, actA), (11, actB), (12, actM), (13, actDeleted), (14, actUnresolved)]

/-- ID addresses resolve to themselves; 14 is not resolvable. -/
def exResolve : Address → Option Address := fun a => if a = 14 then none else some a

def msg1 : Message :=
  { From := 10, To := 12, Value := 100, Method := 2, Params := [2],
    GasLimit := 77, GasFeeCap := 5, GasPremium := 3, Nonce := 0 }

def msg2 : Message :=
  { From := 11, To := 13, Value := 7, Method := 0, Params := [],
    GasLimit := 80, GasFeeCap := 5, GasPremium := 2, Nonce := 4 }

def cm1 : ChainMsg := { VMMessage := msg1, Cid := 50 }
def cm2 : ChainMsg := { VMMessage := msg2, Cid := 51 }

def rc1 : MessageReceipt := { ExitCode := 0, Return := [1], GasUsed := 33 }
def rc2 : MessageReceipt := { ExitCode := 0, Return := [], GasUsed := 44 }

def bh20 : BlockHeader := { Messages := 40, ParentMessageReceipts := 0, ParentBaseFee := 9 }
def bh30 : BlockHeader := { Messages := 41, ParentMessageReceipts := 60, ParentBaseFee := 9 }

/-- The parent tipset (current). -/
def exCurrent : TipSet :=
  { Cids := [20], Blocks := [bh20], Height := 5, Parents := [19], ParentState := 200 }

/-- The child tipset (next). -/
def exNext : TipSet :=
  { Cids := [30], Blocks := [bh30], Height := 6, Parents := [20], ParentState := 300 }

def exCS : ChainStore :=
  { ReadMsgMetaCids := fun c => if c = 40 then .ok ([50], [51]) else .error "no msg meta",
    BlockMsgsForTipset := fun ts =>
      if ts.Height = 5 then .ok [{ BlsMessages := [cm1], SecpkMessages := [cm2] }]
      else .error "no tipset",
    LoadReceipts := fun c => if c = 60 then .ok [some rc1, some rc2] else .error "no amt",
    LoadStateTree := fun c =>
      if c = 300 then .ok stChild else if c = 200 then .ok stParent else .error "no state",
    LoadInitActorState := fun _ => .ok { ResolveAddress := exResolve },
    NewVM := fun _ _ => .ok (),
    ShouldBurn := fun _ _ ec => .ok (ec == 0),
    ComputeGasOutputs := fun gasUsed gasLimit baseFee _feeCap premium burn =>
      { BaseFeeBurn := gasUsed * baseFee, OverEstimationBurn := 0, MinerPenalty := 0,
        MinerTip := premium, Refund := if burn then 1 else 0,
        GasRefund := gasLimit - gasUsed, GasBurned := 0 },
    MessagesForBlock := fun bh =>
      if bh.Messages = 41 then .ok ([], []) else .error "no block" }

/-- The extraction result on the concrete scenario. -/
def exTsm : TipSetMessages :=
  match GetExecutedAndBlockMessagesForTipset exCS exNext exCurrent with
  | .ok t => t
  | .error _ => { Executed := [], Block := [] }

/-! ## Helper lemmas about the executed-message pipeline -/

theorem processChainMsg_ok (gac : Address → CID × Bool) (mb : CID → List CID)
    (height : Nat) (bh : BlockHeader) (index : Nat) (cm : ChainMsg)
    (em : ExecutedMessagePre)
    (h : processChainMsg gac mb height bh index cm = .ok em) :
    em.Cid = cm.Cid ∧ em.Index = index := by
  simp only [processChainMsg] at h
  split at h
  · exact Except.noConfusion h
  · cases h
    exact ⟨rfl, rfl⟩

theorem range'_add (s m n : Nat) :
    List.range' s m ++ List.range' (s + m) n = List.range' s (m + n) := by
  rw [List.range'_append_1, Nat.add_comm]

theorem processChainMsgs_spec (gac : Address → CID × Bool) (mb : CID → List CID)
    (height : Nat) (bh : BlockHeader) :
    ∀ (msgs : List ChainMsg) (index : Nat) (l : List ExecutedMessagePre) (idx : Nat),
      processChainMsgs gac mb height bh index msgs = .ok (l, idx) →
      l.map (fun em => em.Cid) = msgs.map (fun cm => cm.Cid) ∧
      l.map (fun em => em.Index) = List.range' index l.length ∧
      idx = index + l.length := by
  intro msgs
  induction msgs with
  | nil =>
    intro index l idx h
    cases h
    exact ⟨rfl, rfl, rfl⟩
  | cons cm rest ih =>
    intro index l idx h
    unfold processChainMsgs at h
    split at h
    · exact Except.noConfusion h
    · rename_i em hem
      split at h
      · exact Except.noConfusion h
      · rename_i ems idx2 hrest
        cases h
        obtain ⟨hc, hi⟩ := processChainMsg_ok gac mb height bh index cm em hem
        obtain ⟨hcs, his, hix⟩ := ih _ _ _ hrest
        refine ⟨?_, ?_, ?_⟩
        · simpa [hc] using hcs
        · simp only [List.map_cons, List.length_cons, List.range'_succ, hi, his]
        · simp only [List.length_cons]
          omega

theorem buildExecutedMessages_spec (gac : Address → CID × Bool)
    (mb : CID → List CID) (height : Nat) :
    ∀ (pairs : List (BlockMsgs × BlockHeader)) (index : Nat)
      (l : List ExecutedMessagePre) (idx : Nat),
      buildExecutedMessages gac mb height index pairs = .ok (l, idx) →
      l.map (fun em => em.Cid) =
        (pairs.map (fun p => p.1.BlsMessages.map (fun cm => cm.Cid) ++
                             p.1.SecpkMessages.map (fun cm => cm.Cid))).flatten ∧
      l.map (fun em => em.Index) = List.range' index l.length := by
  intro pairs
  induction pairs with
  | nil =>
    intro index l idx h
    cases h
    exact ⟨rfl, rfl⟩
  | cons pair rest ih =>
    intro index l idx h
    unfold buildExecutedMessages at h
    split at h
    · exact Except.noConfusion h
    · rename_i l1 i1 h1
      split at h
      · exact Except.noConfusion h
      · rename_i l2 i2 h2
        split at h
        · exact Except.noConfusion h
        · rename_i l3 i3 h3
          cases h
          obtain ⟨hc1, hi1, hix1⟩ := processChainMsgs_spec gac mb height pair.2
            _ _ _ _ h1
          obtain ⟨hc2, hi2, hix2⟩ := processChainMsgs_spec gac mb height pair.2
            _ _ _ _ h2
          obtain ⟨hc3, hi3⟩ := ih _ _ _ h3
          constructor
          · simp only [List.map_append, List.map_cons, List.flatten_cons, hc1, hc2, hc3,
              List.append_assoc]
          · have hr : List.range' index l1.length ++
                (List.range' (index + l1.length) l2.length ++
                  List.range' (index + l1.length + l2.length) l3.length) =
                List.range' index (l1.length + (l2.length + l3.length)) := by
              rw [range'_add (index + l1.length) l2.length l3.length,
                range'_add index l1.length (l2.length + l3.length)]
            simp only [List.map_append, List.length_append, hi1]
            rw [hix1] at hi2
            rw [hix2, hix1] at hi3
            rw [hi2, hi3, List.append_assoc,
              Nat.add_assoc l1.length l2.length l3.length]
            exact hr

theorem fillReceipts_spec (cs : ChainStore) (pst : StateTree)
    (rs : List (Option MessageReceipt)) :
    ∀ (l : List ExecutedMessagePre) (l2 : List ExecutedMessage),
      fillReceipts cs pst rs l = .ok l2 →
      l2.map (fun em => em.Cid) = l.map (fun em => em.Cid) ∧
      l2.map (fun em => em.Index) = l.map (fun em => em.Index) := by
  intro l
  induction l with
  | nil =>
    intro l2 h
    cases h
    exact ⟨rfl, rfl⟩
  | cons em rest ih =>
    intro l2 h
    unfold fillReceipts at h
    split at h
    · exact Except.noConfusion h
    · exact Except.noConfusion h
    · rename_i r hr
      split at h
      · exact Except.noConfusion h
      · rename_i burn hburn
        split at h
        · exact Except.noConfusion h
        · rename_i rest2 hrest
          cases h
          obtain ⟨hc, hi⟩ := ih rest2 hrest
          exact ⟨by simp [hc], by simp [hi]⟩

/-- Claim C1: whenever message extraction succeeds on a parent/child tipset
pair, the executed messages it returns are the parent blocks' messages in
block order with each block's BLS messages before its Secp messages, and
their Index fields are exactly the sequence 0,1,...,n-1 in that traversal
order. -/
theorem c1_executed_message_order (cs : ChainStore) (next current : TipSet)
    (tsm : TipSetMessages) (bmsgs : List BlockMsgs)
    (hok : GetExecutedAndBlockMessagesForTipset cs next current = .ok tsm)
    (hbm : cs.BlockMsgsForTipset current = .ok bmsgs) :
    tsm.Executed.map (fun em => em.Cid) =
      (bmsgs.map (fun bm => bm.BlsMessages.map (fun cm => cm.Cid) ++
                            bm.SecpkMessages.map (fun cm => cm.Cid))).flatten ∧
    tsm.Executed.map (fun em => em.Index) = List.range tsm.Executed.length := by
  unfold GetExecutedAndBlockMessagesForTipset at hok
  split at hok
  · exact Except.noConfusion hok
  split at hok
  · exact Except.noConfusion hok
  split at hok
  · exact Except.noConfusion hok
  rename_i mb hmb
  split at hok
  · exact Except.noConfusion hok
  rename_i bmsgs2 hbm2
  split at hok
  · exact Except.noConfusion hok
  rename_i hlen
  split at hok
  · exact Except.noConfusion hok
  rename_i emsgs k hbuild
  split at hok
  · exact Except.noConfusion hok
  rename_i blk0 tail hblocks
  split at hok
  · exact Except.noConfusion hok
  rename_i rs hrs
  split at hok
  · exact Except.noConfusion hok
  rename_i hrslen
  split at hok
  · exact Except.noConfusion hok
  split at hok
  · exact Except.noConfusion hok
  rename_i pst hpst
  split at hok
  · exact Except.noConfusion hok
  rename_i executed hfill
  split at hok
  · exact Except.noConfusion hok
  rename_i blkMsgs hblkMsgs
  cases hok
  have hbeq : bmsgs2 = bmsgs := by
    rw [hbm2] at hbm
    exact (Except.ok.inj hbm)
  subst hbeq
  obtain ⟨hcfill, hifill⟩ := fillReceipts_spec cs pst rs emsgs executed hfill
  obtain ⟨hcb, hib⟩ := buildExecutedMessages_spec _ _ _ _ _ _ _ hbuild
  have hlen2 : bmsgs2.length ≤ current.Blocks.length := by omega
  have hzip : (bmsgs2.zip current.Blocks).map
      (fun p => p.1.BlsMessages.map (fun cm => cm.Cid) ++
                p.1.SecpkMessages.map (fun cm => cm.Cid)) =
      bmsgs2.map (fun bm => bm.BlsMessages.map (fun cm => cm.Cid) ++
                            bm.SecpkMessages.map (fun cm => cm.Cid)) := by
    have hfst := List.map_fst_zip bmsgs2 current.Blocks hlen2
    conv_rhs => rw [← hfst, List.map_map]
    rfl
  have hexlen : executed.length = emsgs.length := by
    have := congrArg List.length hcfill
    simpa using this
  constructor
  · rw [show ({ Executed := executed, Block := blkMsgs } :
        TipSetMessages).Executed = executed from rfl, hcfill, hcb, hzip]
  · rw [show ({ Executed := executed, Block := blkMsgs } :
        TipSetMessages).Executed = executed from rfl, hifill, hib, hexlen,
      List.range_eq_range']

/-- The parent block-messages list of the concrete scenario. -/
def exBmsgs : List BlockMsgs := [{ BlsMessages := [cm1], SecpkMessages := [cm2] }]

/-- Witness for C1: the concrete scenario extracts two messages, CIDs 50
then 51 (the BLS message before the Secp message), with indices 0 and 1. -/
theorem c1_executed_message_order_witness :
    exTsm.Executed.map (fun em => em.Cid) =
      (exBmsgs.map (fun bm => bm.BlsMessages.map (fun cm => cm.Cid) ++
                              bm.SecpkMessages.map (fun cm => cm.Cid))).flatten ∧
    exTsm.Executed.map (fun em => em.Index) = List.range exTsm.Executed.length :=
  c1_executed_message_order exCS exNext exCurrent exTsm exBmsgs (by rfl) (by rfl)

/-- Claim C2: if the receipts array loaded from the first child block
differs in length from the executed-message list built from the parent
tipset, extraction returns the mismatch error (so no partial result is
produced). -/
theorem c2_receipt_count_mismatch_errors (cs : ChainStore) (next current : TipSet)
    (gac : Address → CID × Bool) (mb : CID → List CID) (bmsgs : List BlockMsgs)
    (emsgs : List ExecutedMessagePre) (k : Nat) (blk0 : BlockHeader)
    (tail : List BlockHeader) (rs : List (Option MessageReceipt))
    (hcid : CidArrsEqual next.Parents current.Cids = true)
    (hgac : MakeGetActorCodeFunc cs next current = .ok gac)
    (hmb : buildMessageBlocks cs current = .ok mb)
    (hbm : cs.BlockMsgsForTipset current = .ok bmsgs)
    (hlen : bmsgs.length = current.Blocks.length)
    (hbuild : buildExecutedMessages gac mb current.Height 0
      (bmsgs.zip current.Blocks) = .ok (emsgs, k))
    (hblocks : next.Blocks = blk0 :: tail)
    (hrs : cs.LoadReceipts blk0.ParentMessageReceipts = .ok rs)
    (hmismatch : rs.length ≠ emsgs.length) :
    GetExecutedAndBlockMessagesForTipset cs next current =
      .error "mismatching number of receipts" := by
  unfold GetExecutedAndBlockMessagesForTipset
  rw [hcid]
  simp only [Bool.not_true, Bool.false_eq_true, if_false, hgac, hmb, hbm,
    hbuild, hblocks, hrs, hlen]
  simp [hmismatch]

/-- The chain store of the scenario with a truncated receipts array: only
one receipt for two executed messages. -/
def exCS2 : ChainStore :=
  { exCS with LoadReceipts := fun c => if c = 60 then .ok [some rc1] else .error "no amt" }

/-- The resolver of the scenario, extracted from MakeGetActorCodeFunc. -/
def exGacMain : Address → CID × Bool :=
  match MakeGetActorCodeFunc exCS exNext exCurrent with
  | .ok g => g
  | .error _ => fun _ => (cidUndef, false)

/-- The message-blocks map of the scenario. -/
def exMb : CID → List CID :=
  match buildMessageBlocks exCS exCurrent with
  | .ok m => m
  | .error _ => fun _ => []

/-- The executed-message list (before receipts) of the scenario. -/
def exEmsgsPre : List ExecutedMessagePre :=
  match buildExecutedMessages exGacMain exMb exCurrent.Height 0
      (exBmsgs.zip exCurrent.Blocks) with
  | .ok (l, _) => l
  | .error _ => []

/-- Witness for C2: with only one receipt for two executed messages the
extraction errors out. -/
theorem c2_receipt_count_mismatch_errors_witness :
    GetExecutedAndBlockMessagesForTipset exCS2 exNext exCurrent =
      .error "mismatching number of receipts" :=
  c2_receipt_count_mismatch_errors exCS2 exNext exCurrent exGacMain exMb
    exBmsgs exEmsgsPre 2 bh30 [] [some rc1] (by rfl) (by rfl) (by rfl) (by rfl)
    (by rfl) (by rfl) (by rfl) (by rfl) (by decide)

/-- Claim C10: message extraction requires a genuine parent/child pair — if
the child's parent CID set is not the parent tipset's CID set, it errors
immediately. -/
theorem c10_parent_mismatch_errors (cs : ChainStore) (next current : TipSet)
    (h : next.Parents.toFinset ≠ current.Cids.toFinset) :
    GetExecutedAndBlockMessagesForTipset cs next current =
      .error "child tipset is not on the same chain as parent" := by
  have hne : next.Parents ≠ current.Cids := fun he => h (by rw [he])
  have hb : CidArrsEqual next.Parents current.Cids = false := by
    unfold CidArrsEqual
    simpa using hne
  unfold GetExecutedAndBlockMessagesForTipset
  rw [hb]
  simp

/-- A child tipset whose recorded parent CID is 21 while the supplied
parent tipset has CID 20. -/
def exNextBad : TipSet :=
  { Cids := [30], Blocks := [bh30], Height := 6, Parents := [21], ParentState := 300 }

/-- Witness for C10 at the mismatched concrete pair. -/
theorem c10_parent_mismatch_errors_witness :
    GetExecutedAndBlockMessagesForTipset exCS exNextBad exCurrent =
      .error "child tipset is not on the same chain as parent" :=
  c10_parent_mismatch_errors exCS exNextBad exCurrent (by decide)

theorem processChainMsg_to_warn (f : Address → CID × Bool) (mb : CID → List CID)
    (height : Nat) (bh : BlockHeader) (index : Nat) (cm : ChainMsg)
    (hfrom : (f cm.VMMessage.From).2 = true) :
    processChainMsg f mb height bh index cm =
      .ok { Cid := cm.Cid, Height := height, Message := cm.VMMessage,
            BlockHeader := bh, Blocks := mb cm.Cid, Index := index,
            FromActorCode := (f cm.VMMessage.From).1,
            ToActorCode := (f cm.VMMessage.To).1 } := by
  simp only [processChainMsg]
  cases hgf : f cm.VMMessage.From with
  | mk c b =>
    cases b with
    | false =>
      rw [hgf] at hfrom
      exact absurd hfrom (by simp)
    | true => simp [hgf]

theorem processChainMsg_from_error (f : Address → CID × Bool) (mb : CID → List CID)
    (height : Nat) (bh : BlockHeader) (index : Nat) (cm : ChainMsg)
    (hfrom : (f cm.VMMessage.From).2 = false) :
    processChainMsg f mb height bh index cm =
      .error "failed to find from actor" := by
  simp only [processChainMsg]
  cases hgf : f cm.VMMessage.From with
  | mk c b =>
    cases b with
    | false => simp [hgf]
    | true =>
      rw [hgf] at hfrom
      exact absurd hfrom (by simp)

/-- Claim C3 (amended): the resolver consults the child state tree first,
then the init-actor address map of the child state rechecked against the
child tree; the parent state tree is consulted only when resolution
succeeded but the resolved address has no actor in the child tree — when
the init map cannot resolve the address at all, the resolver answers
not-found without consulting the parent tree.  For a message, a to-code
resolution failure leaves processing successful (warning only) while a
from-code resolution failure is an error. -/
theorem c3_actor_code_resolution (cs : ChainStore) (next current : TipSet)
    (gac : Address → CID × Bool) (st : StateTree) (initActor : Actor)
    (ias : InitActorState)
    (hst : cs.LoadStateTree next.ParentState = .ok st)
    (hinitA : st.lookup builtininitAddress = some initActor)
    (hias : cs.LoadInitActorState initActor = .ok ias)
    (hgac : MakeGetActorCodeFunc cs next current = .ok gac) :
    (∀ a act, st.lookup a = some act → gac a = (act.Code, true)) ∧
    (∀ a ra act, st.lookup a = none → ias.ResolveAddress a = some ra →
      st.lookup ra = some act → gac a = (act.Code, true)) ∧
    (∀ a ra pst act, st.lookup a = none → ias.ResolveAddress a = some ra →
      st.lookup ra = none → cs.LoadStateTree current.ParentState = .ok pst →
      pst.lookup a = some act → gac a = (act.Code, true)) ∧
    (∀ a, st.lookup a = none → ias.ResolveAddress a = none →
      gac a = (cidUndef, false)) ∧
    (∀ mb height bh index cm,
      (gac cm.VMMessage.To).2 = false → (gac cm.VMMessage.From).2 = true →
      processChainMsg gac mb height bh index cm =
        .ok { Cid := cm.Cid, Height := height, Message := cm.VMMessage,
              BlockHeader := bh, Blocks := mb cm.Cid, Index := index,
              FromActorCode := (gac cm.VMMessage.From).1,
              ToActorCode := (gac cm.VMMessage.To).1 }) ∧
    (∀ mb height bh index cm,
      (gac cm.VMMessage.From).2 = false →
      processChainMsg gac mb height bh index cm =
        .error "failed to find from actor") := by
  unfold MakeGetActorCodeFunc at hgac
  rw [hst] at hgac
  simp only [hinitA, hias] at hgac
  have hg := Except.ok.inj hgac
  subst hg
  refine ⟨?_, ?_, ?_, ?_, ?_, ?_⟩
  · intro a act hl
    simp [hl]
  · intro a ra act hl hr hra
    simp [hl, hr, hra]
  · intro a ra pst act hl hr hra hpst hact
    simp [hl, hr, hra, hpst, hact]
  · intro a hl hr
    simp [hl, hr]
  · intro mb height bh index cm _hto hfrom
    exact processChainMsg_to_warn _ mb height bh index cm hfrom
  · intro mb height bh index cm hfrom
    exact processChainMsg_from_error _ mb height bh index cm hfrom

/-- Counterexample for C3 as stated: in the concrete scenario, address 14
is absent from the child state tree, the init-actor map cannot resolve it,
and the parent state tree holds it with code 104 — yet the resolver answers
not-found (cid.Undef) instead of falling back to the parent tree, so the
claimed unconditional child-then-init-then-parent fallback chain does not
hold on the code. -/
theorem c3_counterexample :
    MakeGetActorCodeFunc exCS exNext exCurrent = .ok exGacMain ∧
    stChild.lookup 14 = none ∧
    exResolve 14 = none ∧
    exCS.LoadStateTree exCurrent.ParentState = .ok stParent ∧
    stParent.lookup 14 = some actUnresolved ∧
    actUnresolved.Code = 104 ∧
    exGacMain 14 = (cidUndef, false) :=
  ⟨rfl, rfl, rfl, rfl, rfl, rfl, rfl⟩

/-- Witness for C3 (amended) at the concrete scenario: a child-tree hit, a
parent-tree fallback hit for the deleted actor 13, and the not-found answer
for the unresolvable address 14. -/
theorem c3_actor_code_resolution_witness :
    exGacMain 10 = (actA.Code, true) ∧
    exGacMain 13 = (actDeleted.Code, true) ∧
    exGacMain 14 = (cidUndef, false) := by
  obtain ⟨h1, _h2, h3, h4, _h5, _h6⟩ :=
    c3_actor_code_resolution exCS exNext exCurrent exGacMain stChild actInit
      { ResolveAddress := exResolve } rfl rfl rfl rfl
  exact ⟨h1 10 actA rfl, h3 13 13 stParent actDeleted rfl rfl rfl rfl rfl,
    h4 14 rfl rfl⟩

/-! ## Concrete multisig-approvals scenario -/

def exCodec : Codec :=
  { decodeProposeReturn := fun b =>
      if b = [1] then .ok { TxnID := 7, Applied := true, Code := 0, Ret := [] }
      else if b = [9] then .ok { TxnID := 8, Applied := false, Code := 0, Ret := [] }
      else .error "cbor input should be of type propose return",
    decodeApproveReturn := fun b =>
      if b = [3] then .ok { Applied := true, Code := 0, Ret := [] }
      else if b = [9] then .ok { Applied := false, Code := 0, Ret := [] }
      else .error "cbor input should be of type approve return",
    decodeProposeParams := fun b =>
      if b = [2] then .ok { To := 21, Value := 100, Method := 0, Params := [] }
      else .error "cbor input should be of type propose params",
    decodeTxnIDParams := fun b =>
      if b = [4] then .ok { ID := 7, ProposalHash := [] }
      else if b = [5] then .ok { ID := 8, ProposalHash := [] }
      else .error "cbor input should be of type txnid params" }

def exMsigTxn : MsigTransaction :=
  { To := 21, Value := 100, Method := 0, Params := [], Approved := [10] }

/-- Multisig state at the pre-message snapshot: transaction 7 pending. -/
def exStatePre : MultisigState :=
  { InitialBalance := .ok 500, Threshold := .ok 2, Signers := .ok [10, 11],
    PendingTxns := .ok [(7, exMsigTxn)] }

/-- Multisig state after the message: the pending transaction is gone. -/
def exStatePost : MultisigState :=
  { InitialBalance := .ok 500, Threshold := .ok 2, Signers := .ok [10, 11],
    PendingTxns := .ok [] }

def actMPre : Actor := { Code := sa0MultisigCodeID, Head := 70, Nonce := 0, Balance := 500 }
def actMPost : Actor := { Code := sa0MultisigCodeID, Head := 71, Nonce := 0, Balance := 500 }

def exNode : NodeAPI :=
  { StateGetActor := fun a key =>
      if a = 12 ∧ key = [19] then .ok actMPre
      else if a = 12 ∧ key = [30] then .ok actMPost
      else .error "actor not found",
    LoadMultisig := fun act =>
      if act.Head = 70 then .ok exStatePre
      else if act.Head = 71 then .ok exStatePost
      else .error "not a multisig" }

def exGas : GasOutputs :=
  { BaseFeeBurn := 0, OverEstimationBurn := 0, MinerPenalty := 0, MinerTip := 0,
    Refund := 0, GasRefund := 0, GasBurned := 0 }

/-- An applied Propose to the multisig actor. -/
def emPropose : ExecutedMessage :=
  { Cid := 50, Height := 5, Message := msg1, BlockHeader := bh20, Blocks := [20],
    Index := 0, FromActorCode := 100, ToActorCode := sa0MultisigCodeID,
    Receipt := { ExitCode := 0, Return := [1], GasUsed := 33 }, GasOutputs := exGas }

/-- An applied Approve of pending transaction 7. -/
def emApprove : ExecutedMessage :=
  { Cid := 52, Height := 5,
    Message := { From := 11, To := 12, Value := 0, Method := 3, Params := [4],
                 GasLimit := 70, GasFeeCap := 5, GasPremium := 2, Nonce := 1 },
    BlockHeader := bh20, Blocks := [20], Index := 1, FromActorCode := 101,
    ToActorCode := sa0MultisigCodeID,
    Receipt := { ExitCode := 0, Return := [3], GasUsed := 21 }, GasOutputs := exGas }

/-- An applied Approve naming transaction id 8, absent from the snapshot. -/
def emApproveMissing : ExecutedMessage :=
  { Cid := 53, Height := 5,
    Message := { From := 11, To := 12, Value := 0, Method := 3, Params := [5],
                 GasLimit := 70, GasFeeCap := 5, GasPremium := 2, Nonce := 2 },
    BlockHeader := bh20, Blocks := [20], Index := 2, FromActorCode := 101,
    ToActorCode := sa0MultisigCodeID,
    Receipt := { ExitCode := 0, Return := [3], GasUsed := 22 }, GasOutputs := exGas }

/-- A Propose whose return value is not decodable CBOR. -/
def emBadDecode : ExecutedMessage :=
  { Cid := 54, Height := 5, Message := msg1, BlockHeader := bh20, Blocks := [20],
    Index := 3, FromActorCode := 100, ToActorCode := sa0MultisigCodeID,
    Receipt := { ExitCode := 0, Return := [99], GasUsed := 33 }, GasOutputs := exGas }

/-- A message to a non-multisig actor. -/
def emSkipped : ExecutedMessage :=
  { Cid := 55, Height := 5, Message := msg2, BlockHeader := bh20, Blocks := [20],
    Index := 4, FromActorCode := 101, ToActorCode := 103,
    Receipt := { ExitCode := 0, Return := [], GasUsed := 44 }, GasOutputs := exGas }

/-- A Propose whose return decodes with Applied = false. -/
def emNotApplied : ExecutedMessage :=
  { Cid := 56, Height := 5, Message := msg1, BlockHeader := bh20, Blocks := [20],
    Index := 5, FromActorCode := 100, ToActorCode := sa0MultisigCodeID,
    Receipt := { ExitCode := 0, Return := [9], GasUsed := 33 }, GasOutputs := exGas }

/-- Claim C4 (amended): the task emits an approval row only for messages to
a multisig actor with a success receipt, method Propose or Approve, and an
applied transaction; a message failing the actor-code, exit-code or method
filters, or whose transaction is not applied, is skipped without a row or
error; a message passing those filters whose transaction lookup fails
(e.g. undecodable return value) records a per-message error without a row
and processing continues. -/
theorem c4_multisig_selective_interest (node : NodeAPI) (codec : Codec)
    (ts pts : TipSet) :
    (∀ m a, processMessage node codec ts pts m = .row a →
      isMultisigActor m.ToActorCode = true ∧
      exitCodeIsSuccess m.Receipt.ExitCode = true ∧
      (m.Message.Method = ProposeMethodNum ∨ m.Message.Method = ApproveMethodNum) ∧
      ∃ tx, getTransactionIfApplied node codec m.Message m.Receipt pts = .ok (some tx)) ∧
    (∀ m, (isMultisigActor m.ToActorCode = false ∨
           exitCodeIsSuccess m.Receipt.ExitCode = false ∨
           (m.Message.Method ≠ ProposeMethodNum ∧ m.Message.Method ≠ ApproveMethodNum)) →
      processMessage node codec ts pts m = .skipped) ∧
    (∀ m, getTransactionIfApplied node codec m.Message m.Receipt pts = .ok none →
      processMessage node codec ts pts m = .skipped) ∧
    (∀ m e, isMultisigActor m.ToActorCode = true →
      exitCodeIsSuccess m.Receipt.ExitCode = true →
      (m.Message.Method = ProposeMethodNum ∨ m.Message.Method = ApproveMethodNum) →
      getTransactionIfApplied node codec m.Message m.Receipt pts = .error e →
      processMessage node codec ts pts m =
        .failed { Addr := m.Message.To,
                  Error := "failed to find transaction: " ++ e }) := by
  refine ⟨?_, ?_, ?_, ?_⟩
  · intro m a h
    unfold processMessage at h
    split at h
    · exact MsgOutcome.noConfusion h
    split at h
    · exact MsgOutcome.noConfusion h
    split at h
    · exact MsgOutcome.noConfusion h
    rename_i hms hec hmethod
    refine ⟨by simpa using hms, by simpa using hec, by omega, ?_⟩
    split at h
    · exact MsgOutcome.noConfusion h
    · exact MsgOutcome.noConfusion h
    rename_i tx htx
    exact ⟨tx, htx⟩
  · intro m hcond
    unfold processMessage
    rcases hcond with h | h | h
    · simp [h]
    · cases hb : isMultisigActor m.ToActorCode with
      | false => simp [hb]
      | true => simp [hb, h]
    · cases hb : isMultisigActor m.ToActorCode with
      | false => simp [hb]
      | true =>
        cases hc : exitCodeIsSuccess m.Receipt.ExitCode with
        | false => simp [hb, hc]
        | true =>
          simp only [hb, hc, Bool.not_true, Bool.false_eq_true, if_false]
          rw [if_pos h]
  · intro m h
    unfold processMessage
    cases hb : isMultisigActor m.ToActorCode with
    | false => simp [hb]
    | true =>
      cases hc : exitCodeIsSuccess m.Receipt.ExitCode with
      | false => simp [hb, hc]
      | true =>
        by_cases hm : m.Message.Method ≠ ProposeMethodNum ∧ m.Message.Method ≠ ApproveMethodNum
        · simp only [Bool.not_true, Bool.false_eq_true, if_false]
          rw [if_pos hm]
        · simp only [Bool.not_true, Bool.false_eq_true, if_false]
          rw [if_neg hm, h]
  · intro m e hms hec hmethod herr
    unfold processMessage
    have hm : ¬ (m.Message.Method ≠ ProposeMethodNum ∧ m.Message.Method ≠ ApproveMethodNum) := by
      omega
    simp only [hms, hec, Bool.not_true, Bool.false_eq_true, if_false]
    rw [if_neg hm, herr]

/-- Counterexample for C4 as stated: a message passing the multisig,
success and method filters whose return value fails to decode is not
"skipped without producing a row or an error" — the task records a
per-message error for it (while the claim, whose fourth condition the
message fails, asserts a silent skip). -/
theorem c4_counterexample :
    isMultisigActor emBadDecode.ToActorCode = true ∧
    exitCodeIsSuccess emBadDecode.Receipt.ExitCode = true ∧
    emBadDecode.Message.Method = ProposeMethodNum ∧
    exCodec.decodeProposeReturn emBadDecode.Receipt.Return =
      .error "cbor input should be of type propose return" ∧
    ProcessMessages exNode exCodec exNext exCurrent [emBadDecode] =
      ([], [{ Addr := 12,
              Error := "failed to find transaction: failed to decode return value: cbor input should be of type propose return" }]) :=
  ⟨rfl, rfl, rfl, rfl, rfl⟩

/-- The approval row the task derives for emPropose. -/
def exProposeRow : MultisigApproval :=
  { Height := 5, StateRoot := 200, MultisigID := 12, Message := 50, Method := 2,
    Approver := 10, GasUsed := 33, TransactionID := 7, To := 21, Value := 100,
    InitialBalance := 500, Threshold := 2, Signers := [10, 11] }

/-- Witness for C4 (amended) at the concrete scenario: the applied Propose
yields a row and so satisfies all four conditions; the non-multisig message
and the not-applied Propose are silently skipped; the undecodable-return
message records an error. -/
theorem c4_multisig_selective_interest_witness :
    isMultisigActor emPropose.ToActorCode = true ∧
    exitCodeIsSuccess emPropose.Receipt.ExitCode = true ∧
    (emPropose.Message.Method = ProposeMethodNum ∨
     emPropose.Message.Method = ApproveMethodNum) ∧
    processMessage exNode exCodec exNext exCurrent emSkipped = .skipped ∧
    processMessage exNode exCodec exNext exCurrent emNotApplied = .skipped ∧
    processMessage exNode exCodec exNext exCurrent emBadDecode =
      .failed { Addr := 12,
                Error := "failed to find transaction: failed to decode return value: cbor input should be of type propose return" } := by
  obtain ⟨h1, h2, h3, h4⟩ :=
    c4_multisig_selective_interest exNode exCodec exNext exCurrent
  obtain ⟨ha, hb, hc, -⟩ := h1 emPropose exProposeRow (by rfl)
  refine ⟨ha, hb, hc, h2 emSkipped (Or.inl (by rfl)), h3 emNotApplied (by rfl), ?_⟩
  exact h4 emBadDecode
    "failed to decode return value: cbor input should be of type propose return"
    rfl rfl (Or.inl rfl) rfl

/-! ## Helper lemmas about the Approve pending-transaction scan -/

theorem foldFind_nomatch (pid : Int) :
    ∀ (l : List (Int × MsigTransaction)) (init : Option MsTransaction),
      (∀ p ∈ l, p.1 ≠ pid) →
      l.foldl (fun acc p =>
        if p.1 = pid then
          some { id := pid, toAddr := p.2.To, value := p.2.Value } else acc) init = init := by
  intro l
  induction l with
  | nil => intro init _; rfl
  | cons hd tl ih =>
    intro init hno
    have hhd : hd.1 ≠ pid := hno hd (List.mem_cons_self hd tl)
    simp only [List.foldl_cons, if_neg hhd]
    exact ih init (fun p hp => hno p (List.mem_cons_of_mem hd hp))

theorem foldFind_match (pid : Int) (v : MsTransaction) :
    ∀ (l : List (Int × MsigTransaction)) (init : Option MsTransaction),
      (∀ p ∈ l, p.1 = pid →
        ({ id := pid, toAddr := p.2.To, value := p.2.Value } : MsTransaction) = v) →
      (∃ p ∈ l, p.1 = pid) →
      l.foldl (fun acc p =>
        if p.1 = pid then
          some { id := pid, toAddr := p.2.To, value := p.2.Value } else acc) init = some v := by
  intro l
  induction l with
  | nil =>
    intro init _ hex
    obtain ⟨p, hp, _⟩ := hex
    exact absurd hp (List.not_mem_nil p)
  | cons hd tl ih =>
    intro init hall hex
    by_cases htl : ∃ p ∈ tl, p.1 = pid
    · simp only [List.foldl_cons]
      exact ih _ (fun p hp hq => hall p (List.mem_cons_of_mem hd hp) hq) htl
    · have hhd : hd.1 = pid := by
        obtain ⟨p, hp, hq⟩ := hex
        rcases List.mem_cons.mp hp with rfl | hmem
        · exact hq
        · exact absurd ⟨p, hmem, hq⟩ htl
      have hnone : ∀ p ∈ tl, p.1 ≠ pid := by
        intro p hp hq
        exact htl ⟨p, hp, hq⟩
      simp only [List.foldl_cons, if_pos hhd]
      rw [foldFind_nomatch pid tl _ hnone]
      rw [hall hd (List.mem_cons_self hd tl) hhd]

/-- Claim C5: for an applied Approve, the transaction details (to, value)
come from the multisig state loaded at the parent tipset's parents (the
pre-message snapshot), scanned for the transaction id in the message
params; when no pending transaction with that id exists at the snapshot,
getTransactionIfApplied errors, the task records a per-row error for that
message and continues with the remaining messages. -/
theorem c5_approve_pending_snapshot (node : NodeAPI) (codec : Codec)
    (ts pts : TipSet) (msg : Message) (rcpt : MessageReceipt)
    (ret : ApproveReturn) (params : TxnIDParams) (act : Actor)
    (st : MultisigState) (pending : List (Int × MsigTransaction))
    (hmethod : msg.Method = ApproveMethodNum)
    (hret : codec.decodeApproveReturn rcpt.Return = .ok ret)
    (happ : ret.Applied = true)
    (hparams : codec.decodeTxnIDParams msg.Params = .ok params)
    (hact : node.StateGetActor msg.To pts.Parents = .ok act)
    (hload : node.LoadMultisig act = .ok st)
    (hpending : st.PendingTxns = .ok pending) :
    (∀ txn, (params.ID, txn) ∈ pending →
      (∀ p ∈ pending, p.1 = params.ID → p.2 = txn) →
      getTransactionIfApplied node codec msg rcpt pts =
        .ok (some { id := params.ID, toAddr := txn.To, value := txn.Value })) ∧
    ((∀ p ∈ pending, p.1 ≠ params.ID) →
      getTransactionIfApplied node codec msg rcpt pts =
        .error "pending transaction not found") ∧
    (∀ m rest, m.Message = msg → m.Receipt = rcpt →
      isMultisigActor m.ToActorCode = true →
      exitCodeIsSuccess m.Receipt.ExitCode = true →
      (∀ p ∈ pending, p.1 ≠ params.ID) →
      ProcessMessages node codec ts pts (m :: rest) =
        ((ProcessMessages node codec ts pts rest).1,
         { Addr := m.Message.To,
           Error := "failed to find transaction: pending transaction not found" } ::
           (ProcessMessages node codec ts pts rest).2)) := by
  have hgen : getTransactionIfApplied node codec msg rcpt pts =
      match pending.foldl (fun acc p =>
          if p.1 = params.ID then
            some { id := params.ID, toAddr := p.2.To, value := p.2.Value } else acc)
          (none : Option MsTransaction) with
      | none => .error "pending transaction not found"
      | some tx => .ok (some tx) := by
    unfold getTransactionIfApplied
    rw [if_neg (by rw [hmethod]; decide), if_pos hmethod]
    simp only [hret, happ, Bool.not_true, Bool.false_eq_true, if_false,
      hparams, hact, hload, hpending]
  have hii : (∀ p ∈ pending, p.1 ≠ params.ID) →
      getTransactionIfApplied node codec msg rcpt pts =
        .error "pending transaction not found" := by
    intro hno
    rw [hgen, foldFind_nomatch params.ID pending none hno]
  refine ⟨?_, hii, ?_⟩
  · intro txn hmem huniq
    rw [hgen, foldFind_match params.ID
      { id := params.ID, toAddr := txn.To, value := txn.Value } pending none
      (fun p hp hq => by rw [huniq p hp hq]) ⟨(params.ID, txn), hmem, rfl⟩]
  · intro m rest hm hr hms hec hno
    have herr : getTransactionIfApplied node codec m.Message m.Receipt pts =
        .error "pending transaction not found" := by
      rw [hm, hr]
      exact hii hno
    have hmdisj : ¬ (m.Message.Method ≠ ProposeMethodNum ∧
        m.Message.Method ≠ ApproveMethodNum) := by
      rw [hm, hmethod]
      decide
    have hfail : processMessage node codec ts pts m =
        .failed { Addr := m.Message.To,
                  Error := "failed to find transaction: pending transaction not found" } := by
      unfold processMessage
      simp only [hms, hec, Bool.not_true, Bool.false_eq_true, if_false]
      rw [if_neg hmdisj, herr]
      rfl
    simp only [ProcessMessages, hfail]

/-- The approval row the task derives for emApprove. -/
def exApproveRow : MultisigApproval :=
  { Height := 5, StateRoot := 200, MultisigID := 12, Message := 52, Method := 3,
    Approver := 11, GasUsed := 21, TransactionID := 7, To := 21, Value := 100,
    InitialBalance := 500, Threshold := 2, Signers := [10, 11] }

/-- Witness for C5 at the concrete scenario: the Approve naming the absent
transaction 8 records a per-row error, while the following Approve of
pending transaction 7 still yields its row with details from the
snapshot. -/
theorem c5_approve_pending_snapshot_witness :
    ProcessMessages exNode exCodec exNext exCurrent [emApproveMissing, emApprove] =
      ([exApproveRow],
       [{ Addr := 12,
          Error := "failed to find transaction: pending transaction not found" }]) := by
  have h := c5_approve_pending_snapshot exNode exCodec exNext exCurrent
    emApproveMissing.Message emApproveMissing.Receipt
    { Applied := true, Code := 0, Ret := [] } { ID := 8, ProposalHash := [] }
    actMPre exStatePre [(7, exMsigTxn)]
    rfl rfl rfl rfl rfl rfl rfl
  have h3 := h.2.2 emApproveMissing [emApprove] rfl rfl rfl rfl (by decide)
  rw [h3]
  rfl

/-! ## Sortedness of the upsert column lists -/

theorem charListLe_total :
    ∀ as bs, charListLe as bs = false → charListLe bs as = true := by
  intro as
  induction as with
  | nil => intro bs h; simp [charListLe] at h
  | cons a as ih =>
    intro bs h
    cases bs with
    | nil => simp [charListLe]
    | cons b bs2 =>
      simp only [charListLe] at h ⊢
      by_cases h1 : a.toNat < b.toNat
      · rw [if_pos h1] at h
        exact absurd h (by simp)
      · rw [if_neg h1] at h
        by_cases h2 : b.toNat < a.toNat
        · rw [if_pos h2]
        · rw [if_neg h2] at h
          rw [if_neg (by omega), if_neg (by omega)]
          exact ih bs2 h

theorem charListLe_trans :
    ∀ as bs cs, charListLe as bs = true → charListLe bs cs = true →
      charListLe as cs = true := by
  intro as
  induction as with
  | nil => intro bs cs _ _; cases cs <;> simp [charListLe]
  | cons a as ih =>
    intro bs cs h1 h2
    cases bs with
    | nil => simp [charListLe] at h1
    | cons b bs2 =>
      cases cs with
      | nil => simp [charListLe] at h2
      | cons c cs2 =>
        simp only [charListLe] at h1 h2 ⊢
        by_cases hab : a.toNat < b.toNat
        · by_cases hbc : b.toNat < c.toNat
          · rw [if_pos (by omega)]
          · by_cases hcb : c.toNat < b.toNat
            · rw [if_neg hbc, if_pos hcb] at h2
              exact absurd h2 (by simp)
            · rw [if_pos (by omega)]
        · by_cases hba : b.toNat < a.toNat
          · rw [if_neg hab, if_pos hba] at h1
            exact absurd h1 (by simp)
          · rw [if_neg hab, if_neg hba] at h1
            by_cases hbc : b.toNat < c.toNat
            · rw [if_pos (by omega)]
            · by_cases hcb : c.toNat < b.toNat
              · rw [if_neg hbc, if_pos hcb] at h2
                exact absurd h2 (by simp)
              · rw [if_neg hbc, if_neg hcb] at h2
                rw [if_neg (by omega), if_neg (by omega)]
                exact ih bs2 cs2 h1 h2

theorem strLe_total (x y : String) (h : strLe x y = false) : strLe y x = true :=
  charListLe_total x.data y.data h

theorem strLe_trans (x y z : String) (h1 : strLe x y = true)
    (h2 : strLe y z = true) : strLe x z = true :=
  charListLe_trans x.data y.data z.data h1 h2

theorem insertSortedString_perm (x : String) :
    ∀ l : List String, (insertSortedString x l).Perm (x :: l) := by
  intro l
  induction l with
  | nil => exact List.Perm.refl _
  | cons y ys ih =>
    unfold insertSortedString
    by_cases h : strLe x y
    · rw [if_pos h]
    · rw [if_neg h]
      exact (ih.cons y).trans (List.Perm.swap x y ys)

theorem sortStrings_perm : ∀ l : List String, (sortStrings l).Perm l := by
  intro l
  induction l with
  | nil => exact List.Perm.refl _
  | cons x xs ih =>
    unfold sortStrings
    exact (insertSortedString_perm x (sortStrings xs)).trans (ih.cons x)

theorem insertSortedString_sorted (x : String) :
    ∀ l : List String, l.Sorted (fun a b => strLe a b = true) →
      (insertSortedString x l).Sorted (fun a b => strLe a b = true) := by
  intro l
  induction l with
  | nil =>
    intro _
    simp [insertSortedString]
  | cons y ys ih =>
    intro hs
    rw [List.sorted_cons] at hs
    unfold insertSortedString
    by_cases h : strLe x y
    · rw [if_pos h]
      rw [List.sorted_cons]
      refine ⟨?_, List.sorted_cons.mpr hs⟩
      intro b hb
      rcases List.mem_cons.mp hb with rfl | hb
      · exact h
      · exact strLe_trans x y b h (hs.1 b hb)
    · rw [if_neg h]
      rw [List.sorted_cons]
      refine ⟨?_, ih hs.2⟩
      intro b hb
      have hb2 := (insertSortedString_perm x ys).mem_iff.mp hb
      rcases List.mem_cons.mp hb2 with rfl | hb3
      · exact strLe_total b y (by simpa using h)
      · exact hs.1 b hb3

theorem sortStrings_sorted :
    ∀ l : List String, (sortStrings l).Sorted (fun a b => strLe a b = true) := by
  intro l
  induction l with
  | nil => simp [sortStrings]
  | cons x xs ih =>
    unfold sortStrings
    exact insertSortedString_sorted x (sortStrings xs) ih

/-- A model with primary key columns a, b, c and plain columns x, y, z. -/
def abcxyzCols : List ColumnSpec :=
  [ { name := "a", pk := true, ignored := false },
    { name := "b", pk := true, ignored := false },
    { name := "c", pk := true, ignored := false },
    { name := "x", pk := false, ignored := false },
    { name := "y", pk := false, ignored := false },
    { name := "z", pk := false, ignored := false } ]

/-- Counterexample for C6 as stated: on the claim's own model (PK a, b, c,
non-PK x, y, z) the conflict clause matches, but the update clause writes
spaces around the equals sign — the form the in-src test
TestUpsertSQLGeneration expects — not the claim's exact "x"=EXCLUDED.x. -/
theorem c6_counterexample :
    (GenerateUpsertStrings abcxyzCols).1 = "(a, b, c) DO UPDATE" ∧
    (GenerateUpsertStrings abcxyzCols).2 =
      "\"x\" = EXCLUDED.x, \"y\" = EXCLUDED.y, \"z\" = EXCLUDED.z" ∧
    (GenerateUpsertStrings abcxyzCols).2 ≠
      "\"x\"=EXCLUDED.x, \"y\"=EXCLUDED.y, \"z\"=EXCLUDED.z" :=
  ⟨rfl, rfl, by decide⟩

/-- Claim C6 (amended): upsert SQL generation is deterministic; the
conflict clause lists exactly the primary-key columns sorted ascending and
the update clause exactly the non-PK, non-ignored columns sorted ascending,
each rendered as "col" = EXCLUDED.col with spaces around the equals sign;
on the TestingUpsertStruct declaration the output is exactly the pair the
in-src test expects, and on a model with PK a,b,c and non-PK x,y,z it is
(a, b, c) DO UPDATE with "x" = EXCLUDED.x, "y" = EXCLUDED.y,
"z" = EXCLUDED.z. -/
theorem c6_upsert_sql_generation :
    (∀ cols : List ColumnSpec,
      (sortStrings ((cols.filter (fun c => c.pk)).map (fun c => c.name))).Sorted
        (fun a b => strLe a b = true) ∧
      (sortStrings ((cols.filter (fun c => c.pk)).map (fun c => c.name))).Perm
        ((cols.filter (fun c => c.pk)).map (fun c => c.name)) ∧
      (sortStrings ((cols.filter (fun c => !c.pk && !c.ignored)).map
          (fun c => c.name))).Sorted (fun a b => strLe a b = true) ∧
      (sortStrings ((cols.filter (fun c => !c.pk && !c.ignored)).map
          (fun c => c.name))).Perm
        ((cols.filter (fun c => !c.pk && !c.ignored)).map (fun c => c.name))) ∧
    GenerateUpsertStrings TestingUpsertStructCols =
      ("(cid, height, state_root) DO UPDATE",
       "\"camel_case\" = EXCLUDED.camel_case, \"heads\" = EXCLUDED.heads, \"knees\" = EXCLUDED.knees, \"shoulders\" = EXCLUDED.shoulders, \"toes\" = EXCLUDED.toes") ∧
    GenerateUpsertStrings abcxyzCols =
      ("(a, b, c) DO UPDATE",
       "\"x\" = EXCLUDED.x, \"y\" = EXCLUDED.y, \"z\" = EXCLUDED.z") :=
  ⟨fun _cols => ⟨sortStrings_sorted _, sortStrings_perm _,
    sortStrings_sorted _, sortStrings_perm _⟩, rfl, rfl⟩

/-- Claim C7 (spec-modelled): persisting a versioned model into a schema
whose major version predates a field's introduction succeeds and omits that
field from the emitted column list, while persisting at or after the
introduction includes it (given distinct column names and a schema holding
the active columns). -/
theorem c7_schema_version_gating (schemaCols : List String)
    (fields : List (VersionedFieldSpec × SQLValue)) (major : Nat)
    (hnodup : (fields.map (fun f => f.1.name)).Nodup)
    (hok : ∀ f ∈ fields, f.1.introduced ≤ major → f.1.name ∈ schemaCols) :
    persistVersioned schemaCols fields major = .ok (versionedColumns fields major) ∧
    (∀ f ∈ fields, major < f.1.introduced →
      f.1.name ∉ (versionedColumns fields major).map Prod.fst) ∧
    (∀ f ∈ fields, f.1.introduced ≤ major →
      (f.1.name, f.2) ∈ versionedColumns fields major) := by
  have hall : ∀ c ∈ versionedColumns fields major, schemaCols.contains c.1 = true := by
    intro c hc
    unfold versionedColumns at hc
    rw [List.mem_map] at hc
    obtain ⟨f, hf, rfl⟩ := hc
    rw [List.mem_filter] at hf
    have hmem := hok f hf.1 (by simpa using hf.2)
    simpa using hmem
  refine ⟨?_, ?_, ?_⟩
  · unfold persistVersioned
    rw [if_pos (List.all_eq_true.mpr hall)]
  · intro f hf hlt hmem
    unfold versionedColumns at hmem
    rw [List.map_map, List.mem_map] at hmem
    obtain ⟨g, hg, heq⟩ := hmem
    rw [List.mem_filter] at hg
    have hgf : g = f := List.inj_on_of_nodup_map hnodup hg.1 hf heq
    subst hgf
    have := hg.2
    simp at this
    omega
  · intro f hf hle
    unfold versionedColumns
    exact List.mem_map_of_mem _ (List.mem_filter.mpr ⟨hf, by simpa using hle⟩)

/-- Witness for C7: the test's versioned model persisted at major 2 yields
the two-column row without the message field and without error; at major 3
the message column is included. -/
theorem c7_schema_version_gating_witness :
    persistVersioned ["height", "block"] VersionedModelLatestFields 2 =
      .ok [("height", SQLValue.int 42), ("block", SQLValue.str "blocka")] ∧
    persistVersioned ["height", "block", "message"] VersionedModelLatestFields 3 =
      .ok [("height", SQLValue.int 42), ("block", SQLValue.str "blocka"),
           ("message", SQLValue.str "msg1")] ∧
    "message" ∉ (versionedColumns VersionedModelLatestFields 2).map Prod.fst := by
  have h2 := c7_schema_version_gating ["height", "block"]
    VersionedModelLatestFields 2 (by decide) (by decide)
  have h3 := c7_schema_version_gating ["height", "block", "message"]
    VersionedModelLatestFields 3 (by decide) (by decide)
  exact ⟨h2.1.trans (by rfl), h3.1.trans (by rfl),
    h2.2.1 ({ name := "message", introduced := 3 }, SQLValue.str "msg1")
      (by decide) (by decide)⟩

/-- Claim C8 (spec-modelled): persisting a row with an already-present
primary key is a no-op with upsert disabled (the stored non-key columns
keep their old values and the row count stays at one) and replaces the
non-key columns with upsert enabled (still one row, new values). -/
theorem c8_persist_idempotent (r r2 : MinerInfoRow) (hkey : r2.height = r.height) :
    persistRow false (persistRow false [] r) r2 = [r] ∧
    persistRow true (persistRow false [] r) r2 =
      [{ height := r.height, owner := r2.owner }] := by
  obtain ⟨rh, ro⟩ := r
  constructor <;> simp [persistRow, hkey]

/-- Witness for C8: persisting MinerInfo(height 1, owner A) then the same
key with owner B keeps owner A with upsert disabled and takes owner B with
upsert enabled, one row either way. -/
theorem c8_persist_idempotent_witness :
    persistRow false (persistRow false [] { height := 1, owner := "A" })
      { height := 1, owner := "B" } = [{ height := 1, owner := "A" }] ∧
    persistRow true (persistRow false [] { height := 1, owner := "A" })
      { height := 1, owner := "B" } = [{ height := 1, owner := "B" }] :=
  c8_persist_idempotent { height := 1, owner := "A" } { height := 1, owner := "B" } rfl

/-- Claim C9 (spec-modelled): NewDatabase accepts reporter/schema
identifiers of at most 63 bytes and rejects a 64-byte one with a
configuration error at construction. -/
theorem c9_identifier_limit (url : String) (poolSize : Nat)
    (name schemaName : String) (upsert : Bool)
    (hn : name.utf8ByteSize ≤ MaxPostgresNameLength)
    (hs : schemaName.utf8ByteSize ≤ MaxPostgresNameLength) :
    NewDatabase url poolSize name schemaName upsert =
      .ok { url := url, poolSize := poolSize, name := name,
            schemaName := schemaName, upsert := upsert } ∧
    (∀ longName : String, longName.utf8ByteSize = 64 →
      NewDatabase url poolSize longName schemaName upsert =
        .error "reporter name exceeds maximum postgres name length") := by
  constructor
  · unfold NewDatabase
    rw [if_neg (by omega), if_neg (by omega)]
  · intro ln hln
    unfold NewDatabase
    rw [if_pos (by rw [hln]; decide)]

/-- A 63-byte identifier. -/
def name63 : String := String.mk (List.replicate 63 'x')

/-- A 64-byte identifier. -/
def name64 : String := String.mk (List.replicate 64 'x')

/-- Witness for C9: the 63-byte name is accepted, the 64-byte name is
rejected. -/
theorem c9_identifier_limit_witness :
    NewDatabase "postgres://example.com/fakedb" 1 name63 "public" false =
      .ok { url := "postgres://example.com/fakedb", poolSize := 1,
            name := name63, schemaName := "public", upsert := false } ∧
    NewDatabase "postgres://example.com/fakedb" 1 name64 "public" false =
      .error "reporter name exceeds maximum postgres name length" := by
  have h := c9_identifier_limit "postgres://example.com/fakedb" 1 name63
    "public" false (by decide) (by decide)
  exact ⟨h.1, h.2 name64 (by decide)⟩

end Lily
